import Mathlib

/-!
Shallow embedding of the NSNew repository: the circom binary-container
parsers (`src/circom/file.rs`, `src/circom/reader.rs`) and the recursive
step driver (`src/lib.rs`), together with proofs settling the frozen
claims about them.

Conventions of the embedding:
* A byte is a `Nat`; every read reduces it modulo 256, matching `u8`.
* `ByteStream` models a seekable reader (`Read + Seek`) as the full
  underlying data plus a cursor.
* `RResult` distinguishes success (`ok`), I/O errors such as an
  unexpected end of stream (`ioErr`), the typed `Err`/`bail!` failures
  of the source (`err`), and panics (`panicked`): the `unwrap`,
  `expect`, out-of-bounds indexing and failed `assert!` paths.
* Machine arithmetic follows release-mode Rust: `u32`/`u64`/`usize`
  operations wrap modulo `2 ^ 32` / `2 ^ 64`.
-/

set_option autoImplicit false
set_option linter.unusedVariables false
set_option maxRecDepth 16384

namespace NSNew

/-- The value of one byte (`u8`): its residue modulo 256. -/
def byteVal (b : Nat) : Nat := b % 256

/-- Little-endian value of a byte list, each byte reduced modulo 256. -/
def leVal (bs : List Nat) : Nat :=
  List.foldr (fun b acc => byteVal b + 256 * acc) 0 bs

/-- A seekable byte reader: the underlying data plus the cursor. -/
structure ByteStream where
  data : List Nat
  pos : Nat
deriving DecidableEq

/-- The distinct failure causes appearing in the sources (each `Err`
message, `bail!` message, or panic site gets one constructor). -/
inductive PErr where
  | invalidMagic
  | unsupportedVersion
  | invalidHeaderSize
  | unsupportedField
  | invalidMapSize
  | wireZeroNotZero
  | unwrapNone
  | expectFailed
  | fromReprNone
  | indexOutOfBounds
  | invalidWtnsMagic
  | unsupportedWtnsVersion
  | invalidNumSections
  | invalidSectionType
  | invalidSectionLen
  | invalidFieldSize
  | invalidWitnessSize
deriving DecidableEq

/-- Result of a fallible Rust computation: `ok`, an I/O error (`ioErr`),
a typed error (`err`), or a panic (`panicked`). -/
inductive RResult (α : Type) where
  | ok : α → RResult α
  | ioErr : RResult α
  | err : PErr → RResult α
  | panicked : PErr → RResult α
deriving DecidableEq

/-- Sequence an optional read (whose `none` is an I/O error) into a
fallible continuation, like `reader.read_u32()?`. -/
def oseq {α β : Type} (x : Option α) (f : α → RResult β) : RResult β :=
  match x with
  | none => RResult.ioErr
  | some a => f a

/-- Sequence a fallible computation into a continuation: errors and
panics propagate, like the `?` operator. -/
def rseq {α β : Type} (x : RResult α) (f : α → RResult β) : RResult β :=
  match x with
  | RResult.ok a => f a
  | RResult.ioErr => RResult.ioErr
  | RResult.err e => RResult.err e
  | RResult.panicked e => RResult.panicked e

/-- `Read::read_exact` into an `n`-byte buffer: returns the next `n`
bytes and advances the cursor, or fails when fewer than `n` remain. -/
def readExactN (n : Nat) (s : ByteStream) : Option (List Nat × ByteStream) :=
  let bytes := (s.data.drop s.pos).take n
  if bytes.length = n then some (bytes, ⟨s.data, s.pos + n⟩) else none

/-- `reader.read_u8()`. -/
def readU8 (s : ByteStream) : Option (Nat × ByteStream) :=
  match readExactN 1 s with
  | some (bs, s') => some (leVal bs, s')
  | none => none

/-- `reader.read_u32::<LittleEndian>()`. -/
def readU32 (s : ByteStream) : Option (Nat × ByteStream) :=
  match readExactN 4 s with
  | some (bs, s') => some (leVal bs, s')
  | none => none

/-- `reader.read_u64::<LittleEndian>()`. -/
def readU64 (s : ByteStream) : Option (Nat × ByteStream) :=
  match readExactN 8 s with
  | some (bs, s') => some (leVal bs, s')
  | none => none

/-- `reader.seek(SeekFrom::Start o)`. -/
def seekStart (o : Nat) (s : ByteStream) : ByteStream := ⟨s.data, o⟩

/-- `reader.seek(SeekFrom::Current (sz as i64))` for a `u64` size `sz`:
the size is reinterpreted as a signed 64-bit offset, and a resulting
negative position is an I/O error, as in Rust. -/
def seekCurU64 (sz : Nat) (s : ByteStream) : Option ByteStream :=
  let d : Int := if sz < 2 ^ 63 then (sz : Int) else (sz : Int) - 2 ^ 64
  let np : Int := (s.pos : Int) + d
  if np < 0 then none else some ⟨s.data, np.toNat⟩

/-- The byte-by-byte loop of `read_field` that fills the 32-byte
`Fr::ZERO.to_repr()` buffer with `read_u8` calls. -/
def readU8s : Nat → ByteStream → Option (List Nat × ByteStream)
  | 0, s => some ([], s)
  | n + 1, s =>
    match readU8 s with
    | none => none
    | some (b, s') =>
      match readU8s n s' with
      | none => none
      | some (bs, s'') => some (b :: bs, s'')

/-- `read_field::<R, Fr>` from `src/circom/file.rs`, for the prime field
of modulus `p`: reads 32 bytes into the repr buffer and then runs
`Fr::from_repr(repr).unwrap()`.  `from_repr` yields a value exactly when
the little-endian value of the buffer is a canonical representative
(strictly below `p`); the `unwrap` of `None` is a panic. -/
def read_field (p : Nat) (s : ByteStream) : RResult (Nat × ByteStream) :=
  match readU8s 32 s with
  | none => RResult.ioErr
  | some (repr, s') =>
    if leVal repr < p then RResult.ok (leVal repr, s')
    else RResult.panicked PErr.fromReprNone

/-- Canonical little-endian encoding of `x` in `n` bytes: the byte
layout produced by `Fr::to_repr` for a 32-byte field. -/
def encodeLE : Nat → Nat → List Nat
  | 0, _ => []
  | n + 1, x => x % 256 :: encodeLE n (x / 256)

/-- The `Header` struct of `src/circom/file.rs`. -/
structure Header where
  field_size : Nat
  prime_size : List Nat
  n_wires : Nat
  n_pub_out : Nat
  n_pub_in : Nat
  n_prv_in : Nat
  n_labels : Nat
  n_constraints : Nat
deriving DecidableEq

/-- `Constraint<Fr>` from `src/circom/circuit.rs` as used by the parser:
a triple of sparse linear combinations, each a list of
`(wire_index, coefficient)` pairs.  Field elements are canonical `Nat`
residues. -/
abbrev Constraint : Type :=
  (List (Nat × Nat)) × (List (Nat × Nat)) × (List (Nat × Nat))

/-- The `R1CSFile` parse result of `src/circom/file.rs`. -/
structure R1CSFile where
  version : Nat
  header : Header
  constraints : List Constraint
  wire_mapping : List Nat
deriving DecidableEq

/-- The `R1CS` struct.  Its declaration lives in `src/circom/circuit.rs`
(not shipped); the field list is exactly the one populated by
`load_r1cs_from_bin` in `src/circom/reader.rs`.  Modelled from the spec:
`CircuitDefinition: { num_aux, num_inputs, num_variables, constraints }`. -/
structure R1CS where
  num_aux : Nat
  num_inputs : Nat
  num_variables : Nat
  constraints : List Constraint
deriving DecidableEq

/-- `read_header` from `src/circom/file.rs`: reads `field_size`, the
prime bytes, checks the declared section size, then the six counters. -/
def read_header (s : ByteStream) (size : Nat) : RResult (Header × ByteStream) :=
  oseq (readU32 s) (fun (field_size, s) =>
  oseq (readExactN field_size s) (fun (prime_size, s) =>
  if size ≠ 32 + field_size then RResult.err PErr.invalidHeaderSize else
  oseq (readU32 s) (fun (n_wires, s) =>
  oseq (readU32 s) (fun (n_pub_out, s) =>
  oseq (readU32 s) (fun (n_pub_in, s) =>
  oseq (readU32 s) (fun (n_prv_in, s) =>
  oseq (readU64 s) (fun (n_labels, s) =>
  oseq (readU32 s) (fun (n_constraints, s) =>
  RResult.ok (⟨field_size, prime_size, n_wires, n_pub_out, n_pub_in,
    n_prv_in, n_labels, n_constraints⟩, s)))))))))

/-- The `for _ in 0..n_vec` loop of `read_constraint_vec`: reads `n`
pairs of a `u32` wire index and a field element. -/
def readPairs (p : Nat) : Nat → ByteStream → RResult (List (Nat × Nat) × ByteStream)
  | 0, s => RResult.ok ([], s)
  | n + 1, s =>
    oseq (readU32 s) (fun (idx, s) =>
    rseq (read_field p s) (fun (coeff, s) =>
    rseq (readPairs p n s) (fun (rest, s) =>
    RResult.ok ((idx, coeff) :: rest, s))))

/-- `read_constraint_vec` from `src/circom/file.rs`. -/
def read_constraint_vec (p : Nat) (s : ByteStream) :
    RResult (List (Nat × Nat) × ByteStream) :=
  oseq (readU32 s) (fun (n_vec, s) => readPairs p n_vec s)

/-- The `for _ in 0..header.n_constraints` loop of `read_constraints`:
reads `n` triples of sparse vectors. -/
def readTriples (p : Nat) : Nat → ByteStream → RResult (List Constraint × ByteStream)
  | 0, s => RResult.ok ([], s)
  | n + 1, s =>
    rseq (read_constraint_vec p s) (fun (a, s) =>
    rseq (read_constraint_vec p s) (fun (b, s) =>
    rseq (read_constraint_vec p s) (fun (c, s) =>
    rseq (readTriples p n s) (fun (rest, s) =>
    RResult.ok ((a, b, c) :: rest, s)))))

/-- `read_constraints` from `src/circom/file.rs`; the section `size`
argument is accepted but never checked (the source has a
`todo check section size` comment). -/
def read_constraints (p : Nat) (s : ByteStream) (size : Nat) (header : Header) :
    RResult (List Constraint × ByteStream) :=
  readTriples p header.n_constraints s

/-- The `for _ in 0..header.n_wires` loop of `read_map`: reads `n`
little-endian `u64` labels. -/
def readU64s : Nat → ByteStream → Option (List Nat × ByteStream)
  | 0, s => some ([], s)
  | n + 1, s =>
    match readU64 s with
    | none => none
    | some (v, s') =>
      match readU64s n s' with
      | none => none
      | some (vs, s'') => some (v :: vs, s'')

/-- `read_map` from `src/circom/file.rs`: checks the section size, reads
`n_wires` labels, and then evaluates `vec[0]` — which panics when the
vector is empty — before rejecting a nonzero first label. -/
def read_map (s : ByteStream) (size : Nat) (header : Header) :
    RResult (List Nat × ByteStream) :=
  if size ≠ header.n_wires * 8 then RResult.err PErr.invalidMapSize
  else
    match readU64s header.n_wires s with
    | none => RResult.ioErr
    | some (vec, s') =>
      match vec with
      | [] => RResult.panicked PErr.indexOutOfBounds
      | v0 :: _ =>
        if v0 ≠ 0 then RResult.err PErr.wireZeroNotZero
        else RResult.ok (vec, s')

/-- The section map `HashMap<u32, u64>`: a list of insertions, most
recent first.  `insert` overwrites an existing key, so lookup takes the
first (most recently inserted) match. -/
abbrev SecMap : Type := List (Nat × Nat)

/-- `HashMap::insert`. -/
def hmInsert (m : SecMap) (k v : Nat) : SecMap := (k, v) :: m

/-- `HashMap::get`. -/
def hmGet (m : SecMap) (k : Nat) : Option Nat :=
  Option.map Prod.snd (m.find? (fun kv => kv.1 == k))

/-- The section scan loop of `from_reader` (`src/circom/file.rs`): for
each declared section, read its type and size, record the body offset
and size in the two maps, and skip over the body.  The embedding also
returns the ordered list of `(type, size, offset)` triples scanned, as
the observable trace of the scan. -/
def scanSections : Nat → ByteStream → SecMap → SecMap → List (Nat × Nat × Nat) →
    RResult (SecMap × SecMap × List (Nat × Nat × Nat) × ByteStream)
  | 0, s, offs, sizes, scanned => RResult.ok (offs, sizes, scanned, s)
  | n + 1, s, offs, sizes, scanned =>
    oseq (readU32 s) (fun (section_type, s) =>
    oseq (readU64 s) (fun (section_size, s) =>
    oseq (seekCurU64 section_size s) (fun s' =>
    scanSections n s' (hmInsert offs section_type s.pos)
      (hmInsert sizes section_type section_size)
      (scanned ++ [(section_type, section_size, s.pos)]))))

/-- The `r1cs` magic bytes. -/
def r1csMagic : List Nat := [0x72, 0x31, 0x63, 0x73]

/-- `from_reader` from `src/circom/file.rs`: magic and version checks,
the section scan, then the header, constraints and wire-map sections in
that order.  Each `section_offsets.get(..).unwrap()` /
`section_sizes.get(..).unwrap()` panics when the section type was never
scanned. -/
def from_reader (p : Nat) (s : ByteStream) : RResult (R1CSFile × ByteStream) :=
  oseq (readExactN 4 s) (fun (magic, s) =>
  if magic ≠ r1csMagic then RResult.err PErr.invalidMagic else
  oseq (readU32 s) (fun (version, s) =>
  if version ≠ 1 then RResult.err PErr.unsupportedVersion else
  oseq (readU32 s) (fun (num_sections, s) =>
  rseq (scanSections num_sections s [] [] []) (fun (section_offsets, section_sizes, _scanned, s) =>
  match hmGet section_offsets 1 with
  | none => RResult.panicked PErr.unwrapNone
  | some off1 =>
    match hmGet section_sizes 1 with
    | none => RResult.panicked PErr.unwrapNone
    | some size1 =>
      rseq (read_header (seekStart off1 s) size1) (fun (header, s) =>
      if header.field_size ≠ 32 then RResult.err PErr.unsupportedField else
      match hmGet section_offsets 2 with
      | none => RResult.panicked PErr.unwrapNone
      | some off2 =>
        match hmGet section_sizes 2 with
        | none => RResult.panicked PErr.unwrapNone
        | some size2 =>
          rseq (read_constraints p (seekStart off2 s) size2 header) (fun (constraints, s) =>
          match hmGet section_offsets 3 with
          | none => RResult.panicked PErr.unwrapNone
          | some off3 =>
            match hmGet section_sizes 3 with
            | none => RResult.panicked PErr.unwrapNone
            | some size3 =>
              rseq (read_map (seekStart off3 s) size3 header) (fun (wire_mapping, s) =>
              RResult.ok (⟨version, header, constraints, wire_mapping⟩, s))))))))

/-- `load_r1cs_from_bin` from `src/circom/reader.rs`: `from_reader` with
`.expect("unable to read.")` (any parse error becomes a panic), then the
derived counts.  `1 + n_pub_in + n_pub_out` is a `u32` sum (wraps modulo
`2 ^ 32` in release mode) and `num_variables - num_inputs` is a `usize`
subtraction (wraps modulo `2 ^ 64` in release mode). -/
def load_r1cs_from_bin (p : Nat) (s : ByteStream) : RResult R1CS :=
  match from_reader p s with
  | RResult.ok (file, _) =>
    let num_inputs := (1 + file.header.n_pub_in + file.header.n_pub_out) % 4294967296
    let num_variables := file.header.n_wires
    let num_aux := (num_variables + 18446744073709551616 - num_inputs) % 18446744073709551616
    RResult.ok ⟨num_aux, num_inputs, num_variables, file.constraints⟩
  | RResult.panicked e => RResult.panicked e
  | _ => RResult.panicked PErr.expectFailed

/-- The `wtns` magic bytes. -/
def wtnsMagic : List Nat := [119, 116, 110, 115]

/-- The `for _ in 0..witness_len` loop of `load_witness_from_bin_reader`:
reads `n` field elements via `read_field`. -/
def readFields (p : Nat) : Nat → ByteStream → RResult (List Nat × ByteStream)
  | 0, s => RResult.ok ([], s)
  | n + 1, s =>
    rseq (read_field p s) (fun (x, s) =>
    rseq (readFields p n s) (fun (xs, s) =>
    RResult.ok (x :: xs, s)))

/-- `load_witness_from_bin_reader` from `src/circom/reader.rs`.  The
section-2 size check compares against `(witness_len * field_size) as
u64`, a `u32` multiplication, hence taken modulo `2 ^ 32`. -/
def load_witness_from_bin_reader (p : Nat) (s : ByteStream) : RResult (List Nat) :=
  oseq (readExactN 4 s) (fun (wtns_header, s) =>
  if wtns_header ≠ wtnsMagic then RResult.err PErr.invalidWtnsMagic else
  oseq (readU32 s) (fun (version, s) =>
  if 2 < version then RResult.err PErr.unsupportedWtnsVersion else
  oseq (readU32 s) (fun (num_sections, s) =>
  if num_sections ≠ 2 then RResult.err PErr.invalidNumSections else
  oseq (readU32 s) (fun (sec_type, s) =>
  if sec_type ≠ 1 then RResult.err PErr.invalidSectionType else
  oseq (readU64 s) (fun (sec_size, s) =>
  if sec_size ≠ 4 + 32 + 4 then RResult.err PErr.invalidSectionLen else
  oseq (readU32 s) (fun (field_size, s) =>
  if field_size ≠ 32 then RResult.err PErr.invalidFieldSize else
  oseq (readExactN field_size s) (fun (_prime, s) =>
  oseq (readU32 s) (fun (witness_len, s) =>
  oseq (readU32 s) (fun (sec_type2, s) =>
  if sec_type2 ≠ 2 then RResult.err PErr.invalidSectionType else
  oseq (readU64 s) (fun (sec_size2, s) =>
  if sec_size2 ≠ witness_len * field_size % 4294967296 then RResult.err PErr.invalidWitnessSize else
  rseq (readFields p witness_len s) (fun (result, _) =>
  RResult.ok result)))))))))))

/-! ### The step driver (`src/lib.rs`)

The driver's collaborators are external to the core: the witness
generator is an opaque subprocess, `CircomCircuit` lives in
`src/circom/circuit.rs` (not shipped) and folding is the nova
collaborator.  Modelled from the spec: the folding collaborator contract
(`new`, `prove_step`, `get_public_outputs`) and the witness-generation
capability are abstracted as an environment of functions; `none` models
the call failing, which in the source is a panic (`expect` / `unwrap`
inside `compute_witness`, the failed `assert!` after `prove_step`) or an
early `?` return (`RecursiveSNARK::new`).  Runs are embedded with an
observable event trace and a flag recording whether
`fs::remove_file(witness_generator_output)` was executed. -/

/-- The external collaborators of the step driver.  `F` is the scalar
field, `S` the interchange string type (hex/decimal text), `W` a parsed
witness vector, `PI` a per-step private-input map, `Acc` the
accumulator (`RecursiveSNARK`). -/
structure StepEnv (F S W PI Acc : Type) where
  computeWitness : List S → PI → Option W
  getPublicOutputs : R1CS → Option W → List F
  fmt : F → S
  snarkNew : R1CS → Option W → List F → Option Acc
  proveStep : Acc → R1CS → Option W → Option Acc

/-- Observable events of a driver run, in execution order. -/
inductive DriverEvent (S PI : Type) where
  | witnessCall : List S → PI → DriverEvent S PI
  | snarkNewCall : DriverEvent S PI
  | foldStep : DriverEvent S PI
deriving DecidableEq

/-- How a driver run ended: `ok` (the function returned `Ok`),
`errored` (an early `?` return) or `panicked`. -/
inductive RunOutcome (Acc : Type) where
  | ok : Acc → RunOutcome Acc
  | errored : RunOutcome Acc
  | panicked : RunOutcome Acc
deriving DecidableEq

/-- Result of a driver run: the outcome, whether the scoped temporary
witness file was deleted, and the event trace. -/
structure RunTrace (S PI Acc : Type) where
  outcome : RunOutcome Acc
  fileDeleted : Bool
  events : List (DriverEvent S PI)
deriving DecidableEq

/-- Is an event a witness-generator invocation? -/
def isWitnessCall {S PI : Type} : DriverEvent S PI → Bool
  | DriverEvent.witnessCall _ _ => true
  | _ => false

/-- The `for i in 0..iteration_count` loop of `create_recursive_circuit`
(`src/lib.rs` lines 132-156), transcribed from that loop alone: compute
the step witness, build the circuit, derive and re-encode the public
outputs as the next public input, then `prove_step` (whose failure fails
the `assert!`).  Returns the final `(current_public_input, accumulator)`
on success, `none` on a mid-loop panic, together with the event trace. -/
def createStepLoop {F S W PI Acc : Type} (env : StepEnv F S W PI Acc) (r1cs : R1CS) :
    List PI → List S → Acc → Option (List S × Acc) × List (DriverEvent S PI)
  | [], current_public_input, acc => (some (current_public_input, acc), [])
  | pi :: rest, current_public_input, acc =>
    match env.computeWitness current_public_input pi with
    | none => (none, [DriverEvent.witnessCall current_public_input pi])
    | some w =>
      let next_public_input := (env.getPublicOutputs r1cs (some w)).map env.fmt
      match env.proveStep acc r1cs (some w) with
      | none => (none, [DriverEvent.witnessCall current_public_input pi, DriverEvent.foldStep])
      | some acc' =>
        match createStepLoop env r1cs rest next_public_input acc' with
        | (r, evs) =>
          (r, DriverEvent.witnessCall current_public_input pi :: DriverEvent.foldStep :: evs)

/-- The `for i in 0..iteration_count` loop of
`continue_recursive_circuit` (`src/lib.rs` lines 188-212), transcribed
from that loop alone. -/
def continueStepLoop {F S W PI Acc : Type} (env : StepEnv F S W PI Acc) (r1cs : R1CS) :
    List PI → List S → Acc → Option (List S × Acc) × List (DriverEvent S PI)
  | [], current_public_input, acc => (some (current_public_input, acc), [])
  | pi :: rest, current_public_input, acc =>
    match env.computeWitness current_public_input pi with
    | none => (none, [DriverEvent.witnessCall current_public_input pi])
    | some w =>
      let next_public_input := (env.getPublicOutputs r1cs (some w)).map env.fmt
      match env.proveStep acc r1cs (some w) with
      | none => (none, [DriverEvent.witnessCall current_public_input pi, DriverEvent.foldStep])
      | some acc' =>
        match continueStepLoop env r1cs rest next_public_input acc' with
        | (r, evs) =>
          (r, DriverEvent.witnessCall current_public_input pi :: DriverEvent.foldStep :: evs)

/-- `create_recursive_circuit` from `src/lib.rs`: hex-encode the start
public input, compute the step-0 witness (`private_inputs[0]` panics on
an empty list), seed the accumulator via `RecursiveSNARK::new` (an early
`?` return on failure), run the per-step loop, and only then delete the
temporary witness file. -/
def create_recursive_circuit {F S W PI Acc : Type} (env : StepEnv F S W PI Acc)
    (r1cs : R1CS) (private_inputs : List PI) (start_public_input : List F) :
    RunTrace S PI Acc :=
  let start_public_input_hex := start_public_input.map env.fmt
  match private_inputs with
  | [] => ⟨RunOutcome.panicked, false, []⟩
  | pi0 :: rest =>
    match env.computeWitness start_public_input_hex pi0 with
    | none =>
      ⟨RunOutcome.panicked, false, [DriverEvent.witnessCall start_public_input_hex pi0]⟩
    | some witness_0 =>
      match env.snarkNew r1cs (some witness_0) start_public_input with
      | none =>
        ⟨RunOutcome.errored, false,
          [DriverEvent.witnessCall start_public_input_hex pi0, DriverEvent.snarkNewCall]⟩
      | some acc0 =>
        match createStepLoop env r1cs (pi0 :: rest) start_public_input_hex acc0 with
        | (some (_, acc), evs) =>
          ⟨RunOutcome.ok acc, true,
            DriverEvent.witnessCall start_public_input_hex pi0 :: DriverEvent.snarkNewCall :: evs⟩
        | (none, evs) =>
          ⟨RunOutcome.panicked, false,
            DriverEvent.witnessCall start_public_input_hex pi0 :: DriverEvent.snarkNewCall :: evs⟩

/-- `continue_recursive_circuit` from `src/lib.rs`: hex-encode the
caller-supplied `last_zi` as the current public input, run the per-step
loop on the existing accumulator, and only then delete the temporary
witness file. -/
def continue_recursive_circuit {F S W PI Acc : Type} (env : StepEnv F S W PI Acc)
    (r1cs : R1CS) (recursive_snark : Acc) (last_zi : List F) (private_inputs : List PI) :
    RunTrace S PI Acc :=
  let current_public_input := last_zi.map env.fmt
  match continueStepLoop env r1cs private_inputs current_public_input recursive_snark with
  | (some (_, acc'), evs) => ⟨RunOutcome.ok acc', true, evs⟩
  | (none, evs) => ⟨RunOutcome.panicked, false, evs⟩

/-! ### Concrete fixtures used by counterexamples and witnesses -/

/-- The four little-endian bytes of a `u32`. -/
def u32le (v : Nat) : List Nat :=
  [v % 256, v / 256 % 256, v / 65536 % 256, v / 16777216 % 256]

/-- The eight little-endian bytes of a `u64`. -/
def u64le (v : Nat) : List Nat :=
  [v % 256, v / 256 % 256, v / 65536 % 256, v / 16777216 % 256,
   v / 4294967296 % 256, v / 1099511627776 % 256,
   v / 281474976710656 % 256, v / 72057594037927936 % 256]

/-- The scalar-field modulus whose little-endian bytes appear in the
source's own test fixture (`010000f0...6430`): the bn254 scalar field. -/
def bn254r : Nat :=
  21888242871839275222246405745257275088548364400416034343698204186575808495617

/-- A circuit-definition header section body with the given counters and
an all-zero 32-byte prime. -/
def headerBody (n_wires n_pub_out n_pub_in n_prv_in n_labels n_constraints : Nat) :
    List Nat :=
  u32le 32 ++ List.replicate 32 0 ++ u32le n_wires ++ u32le n_pub_out ++
    u32le n_pub_in ++ u32le n_prv_in ++ u64le n_labels ++ u32le n_constraints

/-- A syntactically valid container whose scan records no sections at
all (`num_sections = 0`), followed by arbitrary trailing bytes. -/
def containerNoSections (junk : List Nat) : List Nat :=
  r1csMagic ++ u32le 1 ++ u32le 0 ++ junk

/-- A container declaring only a (valid) header section: the constraints
section (type 2) is absent. -/
def containerMissing2 : List Nat :=
  r1csMagic ++ u32le 1 ++ u32le 1 ++
    (u32le 1 ++ u64le 64 ++ headerBody 1 0 0 0 0 0)

/-- A container declaring a valid header section and an empty
constraints section (`n_constraints = 0`): the wire-map section (type 3)
is absent. -/
def containerMissing3 : List Nat :=
  r1csMagic ++ u32le 1 ++ u32le 2 ++
    (u32le 1 ++ u64le 64 ++ headerBody 1 0 0 0 0 0) ++
    (u32le 2 ++ u64le 0)

/-- A container that parses successfully with `n_wires = 1` but
`n_pub_in = 5`, so that `num_inputs = 6 > 1 = num_variables`. -/
def containerUnderflow : List Nat :=
  r1csMagic ++ u32le 1 ++ u32le 3 ++
    (u32le 1 ++ u64le 64 ++ headerBody 1 0 5 0 0 0) ++
    (u32le 2 ++ u64le 0) ++
    (u32le 3 ++ u64le 8 ++ u64le 0)

/-- A well-formed container with the fixture-like counters
`n_wires = 7`, `n_pub_out = 1`, `n_pub_in = 2`, `n_prv_in = 3`,
`n_labels = 1000`, `n_constraints = 0` and wire map `[0,1,2,3,4,5,6]`. -/
def containerGood : List Nat :=
  r1csMagic ++ u32le 1 ++ u32le 3 ++
    (u32le 1 ++ u64le 64 ++ headerBody 7 1 2 3 1000 0) ++
    (u32le 2 ++ u64le 0) ++
    (u32le 3 ++ u64le 56 ++
      (u64le 0 ++ u64le 1 ++ u64le 2 ++ u64le 3 ++ u64le 4 ++ u64le 5 ++ u64le 6))

/-- The parse result of `containerGood`. -/
def fileGood : R1CSFile :=
  ⟨1, ⟨32, List.replicate 32 0, 7, 1, 2, 3, 1000, 0⟩, [], [0, 1, 2, 3, 4, 5, 6]⟩

/-- A witness container with declared `witness_len = wl`, declared
section-2 size `z`, and an empty section-2 body. -/
def wtnsInput (wl z : Nat) : List Nat :=
  wtnsMagic ++ u32le 2 ++ u32le 2 ++ u32le 1 ++ u64le 40 ++ u32le 32 ++
    List.replicate 32 0 ++ u32le wl ++ u32le 2 ++ u64le z

/-- A section-header stream declaring the same section type 1 twice. -/
def dupSections : List Nat :=
  u32le 1 ++ u64le 0 ++ u32le 1 ++ u64le 0

/-- A driver environment over `Nat` data in which witness generation
always fails: the first step panics. -/
def envFail : StepEnv Nat Nat Nat Nat Nat :=
  ⟨fun _ _ => none, fun _ _ => [], id, fun _ _ _ => some 0, fun a _ _ => some a⟩

/-- A driver environment over `Nat` data in which every collaborator
call succeeds. -/
def envOk : StepEnv Nat Nat Nat Nat Nat :=
  ⟨fun _ _ => some 0, fun _ _ => [0], id, fun _ _ _ => some 0, fun a _ _ => some a⟩

/-- A trivial concrete constraint system for driver runs. -/
def r1cs0 : R1CS := ⟨0, 0, 0, []⟩

/-- The last-scanned `(type, size, offset)` entry for type `t`, as the
reference policy the section maps are compared against. -/
def lastScan (scanned : List (Nat × Nat × Nat)) (t : Nat) : Option (Nat × Nat × Nat) :=
  (scanned.filter (fun x => x.1 == t)).getLast?

instance : DecidableEq (SecMap × SecMap × List (Nat × Nat × Nat) × ByteStream) :=
  instDecidableEqProd

/-- The `R1CS` produced from `containerUnderflow`: the wrapping `usize`
subtraction yields `num_aux = 2 ^ 64 - 5`. -/
def r1csUnderflow : R1CS := ⟨18446744073709551611, 6, 1, []⟩

/-- A header with `n_wires = 0` (and otherwise plausible fields). -/
def headerZeroWires : Header := ⟨32, List.replicate 32 0, 0, 0, 0, 0, 0, 0⟩

/-- A header with `n_wires = 1`. -/
def headerOneWire : Header := ⟨32, List.replicate 32 0, 1, 0, 0, 0, 0, 0⟩

/-! ## Helper lemmas -/

theorem leVal_nil : leVal [] = 0 := rfl

theorem leVal_cons (b : Nat) (bs : List Nat) :
    leVal (b :: bs) = byteVal b + 256 * leVal bs := rfl

theorem leVal_lt : ∀ (bs : List Nat), leVal bs < 256 ^ bs.length
  | [] => by simp [leVal]
  | b :: bs => by
    have ih := leVal_lt bs
    have hb : byteVal b < 256 := Nat.mod_lt _ (by omega)
    rw [leVal_cons]
    simp only [List.length_cons, pow_succ]
    omega

theorem encodeLE_length : ∀ (n x : Nat), (encodeLE n x).length = n
  | 0, _ => rfl
  | n + 1, x => by simp [encodeLE, encodeLE_length n]

theorem leVal_encodeLE : ∀ (n x : Nat), x < 256 ^ n → leVal (encodeLE n x) = x
  | 0, x, h => by
    simp only [pow_zero, Nat.lt_one_iff] at h
    simp [encodeLE, leVal, h]
  | n + 1, x, h => by
    have hx : x / 256 < 256 ^ n := by
      rw [Nat.div_lt_iff_lt_mul (by omega)]
      rw [pow_succ] at h
      omega
    have ih := leVal_encodeLE n (x / 256) hx
    rw [encodeLE, leVal_cons, ih]
    unfold byteVal
    omega

theorem map_byteVal_encodeLE : ∀ (n x : Nat),
    (encodeLE n x).map byteVal = encodeLE n x
  | 0, _ => rfl
  | n + 1, x => by
    have hb : byteVal (x % 256) = x % 256 := by unfold byteVal; omega
    simp [encodeLE, map_byteVal_encodeLE n, hb]

theorem readExactN_chunk (data chunk post : List Nat) (pos n : Nat)
    (hd : data.drop pos = chunk ++ post) (hn : chunk.length = n) :
    readExactN n ⟨data, pos⟩ = some (chunk, ⟨data, pos + n⟩) := by
  subst hn
  simp only [readExactN, hd, List.take_left]
  simp

theorem drop_next (data chunk post : List Nat) (pos n : Nat)
    (hd : data.drop pos = chunk ++ post) (hn : chunk.length = n) :
    data.drop (pos + n) = post := by
  subst hn
  rw [← List.drop_drop, hd, List.drop_left]

theorem leVal_u32le (v : Nat) (hv : v < 4294967296) : leVal (u32le v) = v := by
  simp [u32le, leVal, byteVal]
  omega

theorem leVal_u64le (v : Nat) (hv : v < 18446744073709551616) :
    leVal (u64le v) = v := by
  simp [u64le, leVal, byteVal]
  omega

theorem readU32_chunk (data post : List Nat) (pos v : Nat)
    (hv : v < 4294967296) (hd : data.drop pos = u32le v ++ post) :
    readU32 ⟨data, pos⟩ = some (v, ⟨data, pos + 4⟩) := by
  unfold readU32
  rw [readExactN_chunk data (u32le v) post pos 4 hd (by simp [u32le])]
  simp [leVal_u32le v hv]

theorem readU64_chunk (data post : List Nat) (pos v : Nat)
    (hv : v < 18446744073709551616) (hd : data.drop pos = u64le v ++ post) :
    readU64 ⟨data, pos⟩ = some (v, ⟨data, pos + 8⟩) := by
  unfold readU64
  rw [readExactN_chunk data (u64le v) post pos 8 hd (by simp [u64le])]
  simp [leVal_u64le v hv]

theorem readU8s_chunk : ∀ (n : Nat) (data chunk post : List Nat) (pos : Nat),
    data.drop pos = chunk ++ post → chunk.length = n →
    readU8s n ⟨data, pos⟩ = some (chunk.map byteVal, ⟨data, pos + n⟩)
  | 0, data, chunk, post, pos, hd, hn => by
    rw [List.length_eq_zero] at hn
    subst hn
    simp [readU8s]
  | n + 1, data, chunk, post, pos, hd, hn => by
    cases chunk with
    | nil => simp at hn
    | cons b bs =>
      simp only [List.length_cons, Nat.add_right_cancel_iff] at hn
      have h1 : readU8 ⟨data, pos⟩ = some (byteVal b, ⟨data, pos + 1⟩) := by
        unfold readU8
        rw [readExactN_chunk data [b] (bs ++ post) pos 1 (by simpa using hd) rfl]
        simp [leVal, byteVal]
      have h2 : data.drop (pos + 1) = bs ++ post :=
        drop_next data [b] (bs ++ post) pos 1 (by simpa using hd) rfl
      have ih := readU8s_chunk n data bs post (pos + 1) h2 hn
      have hpos : pos + 1 + n = pos + (n + 1) := by omega
      simp [readU8s, h1, ih, hpos]

theorem readU64s_length : ∀ (n : Nat) (s : ByteStream) (vs : List Nat) (s' : ByteStream),
    readU64s n s = some (vs, s') → vs.length = n
  | 0, s, vs, s', h => by
    simp [readU64s] at h
    simp [h.1]
  | n + 1, s, vs, s', h => by
    unfold readU64s at h
    cases h1 : readU64 s with
    | none => simp [h1] at h
    | some p1 =>
      obtain ⟨v, s1⟩ := p1
      simp only [h1] at h
      cases h2 : readU64s n s1 with
      | none => simp [h2] at h
      | some p2 =>
        obtain ⟨tl, s2⟩ := p2
        simp only [h2] at h
        have ih := readU64s_length n s1 tl s2 h2
        simp only [Option.some.injEq, Prod.mk.injEq] at h
        rw [← h.1]
        simp [ih]

/-! ## Claim C1 -/

/-- Claim C1 (counterexample to the claim as stated): decoding the
32-byte pattern of all `0xff` bytes — not a canonical representative of
the bn254 scalar field — makes `read_field` panic (on the `unwrap` of
`from_repr`) rather than return an error. -/
theorem c1_counterexample :
    read_field bn254r ⟨List.replicate 32 255, 0⟩ =
      RResult.panicked PErr.fromReprNone := by
  decide

/-- Claim C1 (amended): for every 32-byte input whose byte pattern is
not a canonical representative of the target prime field (its
little-endian value is `≥ p`), `read_field` panics on
`Fr::from_repr(repr).unwrap()`; it does not return an error. -/
theorem c1_read_field_noncanonical_panics (p : Nat) (s : ByteStream)
    (repr : List Nat) (s' : ByteStream)
    (hread : readU8s 32 s = some (repr, s'))
    (hnc : p ≤ leVal repr) :
    read_field p s = RResult.panicked PErr.fromReprNone := by
  unfold read_field
  simp only [hread]
  rw [if_neg (by omega)]

/-- Claim C1 witness: the amended theorem applied at a concrete
non-canonical input. -/
theorem c1_witness :
    read_field 17 ⟨List.replicate 32 255, 0⟩ = RResult.panicked PErr.fromReprNone :=
  c1_read_field_noncanonical_panics 17 ⟨List.replicate 32 255, 0⟩
    (List.replicate 32 255) ⟨List.replicate 32 255, 32⟩ (by decide) (by decide)

/-! ## Claim C9 -/

/-- Claim C9: for every canonical field element `x` of a prime field
whose elements are representable in 32 bytes, decoding (via
`read_field`) the 32-byte canonical little-endian encoding of `x`
yields `x`: encode followed by decode is the identity on canonical
field elements. -/
theorem c9_decode_encode_id (p x : Nat) (hx : x < p) (hp : p ≤ 2 ^ 256) :
    read_field p ⟨encodeLE 32 x, 0⟩ = RResult.ok (x, ⟨encodeLE 32 x, 32⟩) := by
  have hx256 : x < 256 ^ 32 := by
    have h : (256 : Nat) ^ 32 = 2 ^ 256 := by norm_num
    omega
  have hread := readU8s_chunk 32 (encodeLE 32 x) (encodeLE 32 x) [] 0
    (by simp) (encodeLE_length 32 x)
  rw [map_byteVal_encodeLE] at hread
  unfold read_field
  simp only [hread]
  rw [leVal_encodeLE 32 x hx256]
  rw [if_pos hx]

/-- Claim C9 witness: the identity at a concrete canonical element. -/
theorem c9_witness :
    read_field 97 ⟨encodeLE 32 42, 0⟩ = RResult.ok (42, ⟨encodeLE 32 42, 32⟩) :=
  c9_decode_encode_id 97 42 (by decide) (by norm_num)

/-! ## Claim C3 -/

/-- Claim C3 (counterexample to the claim as stated): with
`n_wires = 0` and a matching section size, `read_map` panics on the
out-of-bounds `vec[0]` index instead of failing with an error. -/
theorem c3_counterexample :
    read_map ⟨[], 0⟩ 0 headerZeroWires = RResult.panicked PErr.indexOutOfBounds := by
  decide

/-- Claim C3 (amended): for every wire-map section body with
`n_wires ≥ 1`, `read_map` never panics, and it fails with an error
whenever the first label is not 0 (equivalently: every successful parse
has first label 0).  For `n_wires = 0` the source panics on `vec[0]`. -/
theorem c3_read_map_first_label (s : ByteStream) (size : Nat) (header : Header)
    (hw : 1 ≤ header.n_wires) :
    (∀ e, read_map s size header ≠ RResult.panicked e) ∧
    (∀ vec s', read_map s size header = RResult.ok (vec, s') → vec.head? = some 0) := by
  unfold read_map
  split
  · exact ⟨fun e h => (by cases h), fun vec s' h => (by cases h)⟩
  · cases hr : readU64s header.n_wires s with
    | none =>
      simp only [hr]
      exact ⟨fun e h => (by cases h), fun vec s' h => (by cases h)⟩
    | some p1 =>
      obtain ⟨vec0, s0⟩ := p1
      simp only [hr]
      have hlen := readU64s_length _ _ _ _ hr
      cases vec0 with
      | nil => simp at hlen; omega
      | cons v0 rest =>
        by_cases hv : v0 = 0
        · subst hv
          refine ⟨fun e h => ?_, fun vec s' h => ?_⟩
          · simp at h
          · simp at h
            rw [← h.1]
            simp
        · refine ⟨fun e h => ?_, fun vec s' h => ?_⟩
          · simp [hv] at h
          · simp [hv] at h

/-- Claim C3 witness: the amended theorem at a concrete one-wire map. -/
theorem c3_witness :
    (∀ e, read_map ⟨u64le 0, 0⟩ 8 headerOneWire ≠ RResult.panicked e) ∧
    (∀ vec s', read_map ⟨u64le 0, 0⟩ 8 headerOneWire = RResult.ok (vec, s') →
      vec.head? = some 0) :=
  c3_read_map_first_label ⟨u64le 0, 0⟩ 8 headerOneWire (by decide)

/-! ## Claim C2 -/

/-- Claim C2 (counterexample to the claim as stated): a container with a
valid magic and version whose section scan completes (declaring zero
sections) is missing all three required sections, and `from_reader`
panics on `section_offsets.get(&1).unwrap()` instead of returning a
`MalformedContainer`-class error. -/
theorem c2_counterexample :
    from_reader 97 ⟨containerNoSections [], 0⟩ = RResult.panicked PErr.unwrapNone := by
  decide

/-- Claim C2 (amended): when the section scan completes but a required
section is absent, `from_reader` panics on the `unwrap` of the missing
section's map lookup rather than returning an error: for every container
whose scan records no sections (any trailing bytes), and for concrete
containers missing only the constraints section (type 2) or only the
wire-map section (type 3). -/
theorem c2_missing_section_panics :
    (∀ (p : Nat) (junk : List Nat),
      from_reader p ⟨containerNoSections junk, 0⟩ = RResult.panicked PErr.unwrapNone) ∧
    (∀ p : Nat, from_reader p ⟨containerMissing2, 0⟩ = RResult.panicked PErr.unwrapNone) ∧
    (∀ p : Nat, from_reader p ⟨containerMissing3, 0⟩ = RResult.panicked PErr.unwrapNone) := by
  refine ⟨fun p junk => ?_, fun p => rfl, fun p => rfl⟩
  have h0 : (containerNoSections junk).drop 0 = r1csMagic ++ (u32le 1 ++ (u32le 0 ++ junk)) := by
    simp [containerNoSections, List.append_assoc]
  have e1 : readExactN 4 ⟨containerNoSections junk, 0⟩ =
      some (r1csMagic, ⟨containerNoSections junk, 4⟩) :=
    readExactN_chunk _ _ _ 0 4 h0 rfl
  have h4 : (containerNoSections junk).drop 4 = u32le 1 ++ (u32le 0 ++ junk) :=
    drop_next _ _ _ 0 4 h0 rfl
  have e2 : readU32 ⟨containerNoSections junk, 4⟩ =
      some (1, ⟨containerNoSections junk, 8⟩) :=
    readU32_chunk _ _ 4 1 (by norm_num) h4
  have h8 : (containerNoSections junk).drop 8 = u32le 0 ++ junk :=
    drop_next _ _ _ 4 4 h4 (by simp [u32le])
  have e3 : readU32 ⟨containerNoSections junk, 8⟩ =
      some (0, ⟨containerNoSections junk, 12⟩) :=
    readU32_chunk _ _ 8 0 (by norm_num) h8
  simp [from_reader, e1, e2, e3, oseq, rseq, scanSections, hmGet]

/-! ## Claim C5 -/

theorem hmGet_hmInsert (m : SecMap) (k v t : Nat) :
    hmGet (hmInsert m k v) t = if t = k then some v else hmGet m t := by
  by_cases h : t = k
  · subst h
    simp [hmGet, hmInsert]
  · have hk : (k == t) = false := by
      simp [Nat.beq_eq_true_eq]
      omega
    simp [hmGet, hmInsert, hk, h]

theorem lastScan_append (scanned : List (Nat × Nat × Nat)) (t0 sz off t : Nat) :
    lastScan (scanned ++ [(t0, sz, off)]) t =
      if t = t0 then some (t0, sz, off) else lastScan scanned t := by
  unfold lastScan
  rw [List.filter_append]
  by_cases h : t = t0
  · subst h
    simp
  · have hk : (t0 == t) = false := by
      simp [Nat.beq_eq_true_eq]
      omega
    simp [hk, h]

theorem scanSections_no_panic : ∀ (n : Nat) (s : ByteStream) (offs sizes : SecMap)
    (scanned : List (Nat × Nat × Nat)) (e : PErr),
    scanSections n s offs sizes scanned ≠ RResult.panicked e
  | 0, s, offs, sizes, scanned, e => by simp [scanSections]
  | n + 1, s, offs, sizes, scanned, e => by
    unfold scanSections
    cases h1 : readU32 s with
    | none => simp [h1, oseq]
    | some p1 =>
      obtain ⟨t0, s1⟩ := p1
      simp only [h1, oseq]
      cases h2 : readU64 s1 with
      | none => simp [h2, oseq]
      | some p2 =>
        obtain ⟨sz0, s2⟩ := p2
        simp only [h2, oseq]
        cases h3 : seekCurU64 sz0 s2 with
        | none => simp [h3, oseq]
        | some s3 =>
          simp only [h3, oseq]
          exact scanSections_no_panic n s3 _ _ _ e

theorem scanSections_last_wins : ∀ (n : Nat) (s : ByteStream) (offs sizes : SecMap)
    (scanned : List (Nat × Nat × Nat)) (offs' sizes' : SecMap)
    (scanned' : List (Nat × Nat × Nat)) (s' : ByteStream),
    scanSections n s offs sizes scanned = RResult.ok (offs', sizes', scanned', s') →
    (∀ t, hmGet offs t = Option.map (fun x => x.2.2) (lastScan scanned t) ∧
          hmGet sizes t = Option.map (fun x => x.2.1) (lastScan scanned t)) →
    ∀ t, hmGet offs' t = Option.map (fun x => x.2.2) (lastScan scanned' t) ∧
         hmGet sizes' t = Option.map (fun x => x.2.1) (lastScan scanned' t)
  | 0, s, offs, sizes, scanned, offs', sizes', scanned', s', h, hinv, t => by
    simp [scanSections] at h
    obtain ⟨h1, h2, h3, _⟩ := h
    subst h1; subst h2; subst h3
    exact hinv t
  | n + 1, s, offs, sizes, scanned, offs', sizes', scanned', s', h, hinv, t => by
    unfold scanSections at h
    cases h1 : readU32 s with
    | none => simp [h1, oseq] at h
    | some p1 =>
      obtain ⟨t0, s1⟩ := p1
      simp only [h1, oseq] at h
      cases h2 : readU64 s1 with
      | none => simp [h2, oseq] at h
      | some p2 =>
        obtain ⟨sz0, s2⟩ := p2
        simp only [h2, oseq] at h
        cases h3 : seekCurU64 sz0 s2 with
        | none => simp [h3, oseq] at h
        | some s3 =>
          simp only [h3, oseq] at h
          refine scanSections_last_wins n s3 _ _ _ offs' sizes' scanned' s' h ?_ t
          intro u
          rw [hmGet_hmInsert, hmGet_hmInsert, lastScan_append]
          by_cases hu : u = t0
          · simp [hu]
          · simp [hu]
            exact hinv u

/-- Claim C5: for every container stream, the section scan of
`from_reader` applies the last-wins policy on duplicate section types —
after a successful scan, the recorded offset and size for each type are
those of the last scanned section of that type — and the scan never
panics (duplicates included). -/
theorem c5_scan_last_wins (n : Nat) (s : ByteStream) :
    (∀ e, scanSections n s [] [] [] ≠ RResult.panicked e) ∧
    (∀ offs' sizes' scanned' s' t,
      scanSections n s [] [] [] = RResult.ok (offs', sizes', scanned', s') →
      hmGet offs' t = Option.map (fun x => x.2.2) (lastScan scanned' t) ∧
      hmGet sizes' t = Option.map (fun x => x.2.1) (lastScan scanned' t)) := by
  constructor
  · intro e
    exact scanSections_no_panic n s [] [] [] e
  · intro offs' sizes' scanned' s' t h
    exact scanSections_last_wins n s [] [] [] offs' sizes' scanned' s' h
      (by intro u; simp [hmGet, lastScan]) t

/-! ## Claim C4 -/

theorem oseq_some {α β : Type} (a : α) (f : α → RResult β) : oseq (some a) f = f a := rfl

theorem rseq_ok {α β : Type} (a : α) (f : α → RResult β) : rseq (RResult.ok a) f = f a := rfl

theorem read_field_eof (p : Nat) (s : ByteStream) (h : s.data.length ≤ s.pos) :
    read_field p s = RResult.ioErr := by
  have h8 : readU8 s = none := by
    have hd : s.data.drop s.pos = [] := List.drop_eq_nil_of_le h
    simp [readU8, readExactN, hd]
  have h32 : readU8s 32 s = none := by
    rw [show (32 : Nat) = 31 + 1 from rfl]
    unfold readU8s
    rw [h8]
  unfold read_field
  rw [h32]

set_option maxHeartbeats 1600000 in
/-- Claim C4 (amended): the section-2 size check of
`load_witness_from_bin_reader` compares the declared size against the
`u32` product `witness_len * field_size`, i.e. against
`witness_len * 32` taken modulo `2 ^ 32` (release-mode wrapping), not
against the exact mathematical product: on a witness container declaring
`witness_len = wl` and section-2 size `z` (with an empty section body),
the parser rejects with the size error exactly when
`z ≠ wl * 32 % 2 ^ 32`, and otherwise proceeds into the section body. -/
theorem c4_size_check_wraps (p wl z : Nat) (hwl : wl < 4294967296)
    (hz : z < 18446744073709551616) :
    load_witness_from_bin_reader p ⟨wtnsInput wl z, 0⟩ =
      (if z = wl * 32 % 4294967296 then
        (if wl = 0 then RResult.ok [] else RResult.ioErr)
      else RResult.err PErr.invalidWitnessSize) := by
  have hlen : (wtnsInput wl z).length = 76 := by
    simp [wtnsInput, wtnsMagic, u32le, u64le]
  have h0 : (wtnsInput wl z).drop 0 = wtnsMagic ++ (u32le 2 ++ (u32le 2 ++ (u32le 1 ++
      (u64le 40 ++ (u32le 32 ++ (List.replicate 32 0 ++ (u32le wl ++
      (u32le 2 ++ u64le z)))))))) := by
    simp [wtnsInput, List.append_assoc]
  have e1 : readExactN 4 ⟨wtnsInput wl z, 0⟩ = some (wtnsMagic, ⟨wtnsInput wl z, 4⟩) :=
    readExactN_chunk _ _ _ 0 4 h0 rfl
  have h4 := drop_next _ _ _ 0 4 h0 rfl
  have e2 : readU32 ⟨wtnsInput wl z, 4⟩ = some (2, ⟨wtnsInput wl z, 8⟩) :=
    readU32_chunk _ _ 4 2 (by norm_num) h4
  have h8 := drop_next _ _ _ 4 4 h4 (by simp [u32le])
  have e3 : readU32 ⟨wtnsInput wl z, 8⟩ = some (2, ⟨wtnsInput wl z, 12⟩) :=
    readU32_chunk _ _ 8 2 (by norm_num) h8
  have h12 := drop_next _ _ _ 8 4 h8 (by simp [u32le])
  have e4 : readU32 ⟨wtnsInput wl z, 12⟩ = some (1, ⟨wtnsInput wl z, 16⟩) :=
    readU32_chunk _ _ 12 1 (by norm_num) h12
  have h16 := drop_next _ _ _ 12 4 h12 (by simp [u32le])
  have e5 : readU64 ⟨wtnsInput wl z, 16⟩ = some (40, ⟨wtnsInput wl z, 24⟩) :=
    readU64_chunk _ _ 16 40 (by norm_num) h16
  have h24 := drop_next _ _ _ 16 8 h16 (by simp [u64le])
  have e6 : readU32 ⟨wtnsInput wl z, 24⟩ = some (32, ⟨wtnsInput wl z, 28⟩) :=
    readU32_chunk _ _ 24 32 (by norm_num) h24
  have h28 := drop_next _ _ _ 24 4 h24 (by simp [u32le])
  have e7 : readExactN 32 ⟨wtnsInput wl z, 28⟩ =
      some (List.replicate 32 0, ⟨wtnsInput wl z, 60⟩) :=
    readExactN_chunk _ _ _ 28 32 h28 (by simp)
  have h60 := drop_next _ _ _ 28 32 h28 (by simp)
  have e8 : readU32 ⟨wtnsInput wl z, 60⟩ = some (wl, ⟨wtnsInput wl z, 64⟩) :=
    readU32_chunk _ _ 60 wl hwl h60
  have h64 := drop_next _ _ _ 60 4 h60 (by simp [u32le])
  have e9 : readU32 ⟨wtnsInput wl z, 64⟩ = some (2, ⟨wtnsInput wl z, 68⟩) :=
    readU32_chunk _ _ 64 2 (by norm_num) h64
  have h68 := drop_next _ _ _ 64 4 h64 (by simp [u32le])
  have e10 : readU64 ⟨wtnsInput wl z, 68⟩ = some (z, ⟨wtnsInput wl z, 76⟩) :=
    readU64_chunk _ _ 68 z hz h68
  unfold load_witness_from_bin_reader
  simp only [e1, e2, e3, e4, e5, e6, e7, e8, e9, e10, oseq_some]
  norm_num
  by_cases hc : z = wl * 32 % 4294967296
  · rw [if_pos hc, if_pos hc]
    cases wl with
    | zero => simp [readFields, rseq]
    | succ n =>
      rw [if_neg (Nat.succ_ne_zero n)]
      have hex : readFields p (n + 1) ⟨wtnsInput (n + 1) z, 76⟩ = RResult.ioErr := by
        unfold readFields
        rw [read_field_eof p ⟨wtnsInput (n + 1) z, 76⟩ (le_of_eq hlen)]
        rfl
      rw [hex]
      rfl
  · rw [if_neg hc, if_neg hc]

/-- Claim C4 (counterexample to the claim as stated): for
`witness_len = 2 ^ 27` and declared section-2 size 0, the mathematical
product is `2 ^ 27 * 32 = 2 ^ 32 ≠ 0`, yet the `u32` product wraps to 0,
so the parser accepts the size — it does not fail with the
size-mismatch (`TruncatedSection`) error, and instead runs into the
section body, hitting end-of-stream (an I/O error). -/
theorem c4_counterexample :
    load_witness_from_bin_reader 97 ⟨wtnsInput 134217728 0, 0⟩ = RResult.ioErr ∧
    load_witness_from_bin_reader 97 ⟨wtnsInput 134217728 0, 0⟩ ≠
      RResult.err PErr.invalidWitnessSize ∧
    (0 : Nat) ≠ 134217728 * 32 := by
  refine ⟨by decide, ?_, by norm_num⟩
  intro h
  rw [show load_witness_from_bin_reader 97 ⟨wtnsInput 134217728 0, 0⟩ = RResult.ioErr
    from by decide] at h
  cases h

/-- Claim C4 witness: the amended size-check characterization at the
concrete accepted instance `witness_len = 1`, declared size 32. -/
theorem c4_witness :
    load_witness_from_bin_reader 7 ⟨wtnsInput 1 32, 0⟩ =
      (if (32 : Nat) = 1 * 32 % 4294967296 then
        (if (1 : Nat) = 0 then RResult.ok [] else RResult.ioErr)
      else RResult.err PErr.invalidWitnessSize) :=
  c4_size_check_wraps 7 1 32 (by norm_num) (by norm_num)

theorem readExactN_length (n : Nat) (s : ByteStream) (bs : List Nat) (s' : ByteStream)
    (h : readExactN n s = some (bs, s')) : bs.length = n := by
  simp only [readExactN] at h
  split at h
  · rename_i hl
    simp only [Option.some.injEq, Prod.mk.injEq] at h
    rw [← h.1]
    exact hl
  · cases h

theorem readU32_lt (s : ByteStream) (v : Nat) (s' : ByteStream)
    (h : readU32 s = some (v, s')) : v < 4294967296 := by
  unfold readU32 at h
  cases he : readExactN 4 s with
  | none => simp [he] at h
  | some q =>
    obtain ⟨bs, s1⟩ := q
    simp only [he, Option.some.injEq, Prod.mk.injEq] at h
    have hl := readExactN_length 4 s bs s1 he
    have hv := leVal_lt bs
    rw [hl] at hv
    have h4 : (256 : Nat) ^ 4 = 4294967296 := by norm_num
    rw [h4] at hv
    omega

theorem read_header_bounds (s : ByteStream) (size : Nat) (hd : Header) (s' : ByteStream)
    (h : read_header s size = RResult.ok (hd, s')) :
    hd.n_wires < 4294967296 ∧ hd.n_pub_out < 4294967296 ∧ hd.n_pub_in < 4294967296 := by
  unfold read_header at h
  cases e1 : readU32 s with
  | none => simp [e1, oseq] at h
  | some q1 =>
    obtain ⟨field_size, s1⟩ := q1
    simp only [e1, oseq] at h
    cases e2 : readExactN field_size s1 with
    | none => simp [e2, oseq] at h
    | some q2 =>
      obtain ⟨prime, s2⟩ := q2
      simp only [e2, oseq] at h
      split at h
      · cases h
      · cases e3 : readU32 s2 with
        | none => simp [e3, oseq] at h
        | some q3 =>
          obtain ⟨n_wires, s3⟩ := q3
          simp only [e3, oseq] at h
          cases e4 : readU32 s3 with
          | none => simp [e4, oseq] at h
          | some q4 =>
            obtain ⟨n_pub_out, s4⟩ := q4
            simp only [e4, oseq] at h
            cases e5 : readU32 s4 with
            | none => simp [e5, oseq] at h
            | some q5 =>
              obtain ⟨n_pub_in, s5⟩ := q5
              simp only [e5, oseq] at h
              cases e6 : readU32 s5 with
              | none => simp [e6, oseq] at h
              | some q6 =>
                obtain ⟨n_prv_in, s6⟩ := q6
                simp only [e6, oseq] at h
                cases e7 : readU64 s6 with
                | none => simp [e7, oseq] at h
                | some q7 =>
                  obtain ⟨n_labels, s7⟩ := q7
                  simp only [e7, oseq] at h
                  cases e8 : readU32 s7 with
                  | none => simp [e8, oseq] at h
                  | some q8 =>
                    obtain ⟨n_constraints, s8⟩ := q8
                    simp only [e8, oseq, RResult.ok.injEq, Prod.mk.injEq] at h
                    obtain ⟨hhd, -⟩ := h
                    subst hhd
                    exact ⟨readU32_lt _ _ _ e3, readU32_lt _ _ _ e4, readU32_lt _ _ _ e5⟩

theorem from_reader_header_bounds (p : Nat) (s : ByteStream) (file : R1CSFile)
    (s' : ByteStream) (h : from_reader p s = RResult.ok (file, s')) :
    file.header.n_wires < 4294967296 ∧ file.header.n_pub_out < 4294967296 ∧
      file.header.n_pub_in < 4294967296 := by
  unfold from_reader at h
  cases e1 : readExactN 4 s with
  | none => simp [e1, oseq] at h
  | some q1 =>
    obtain ⟨magic, s1⟩ := q1
    simp only [e1, oseq] at h
    split at h
    · cases h
    · cases e2 : readU32 s1 with
      | none => simp [e2, oseq] at h
      | some q2 =>
        obtain ⟨version, s2⟩ := q2
        simp only [e2, oseq] at h
        split at h
        · cases h
        · cases e3 : readU32 s2 with
          | none => simp [e3, oseq] at h
          | some q3 =>
            obtain ⟨num_sections, s3⟩ := q3
            simp only [e3, oseq] at h
            cases e4 : scanSections num_sections s3 [] [] [] with
            | ok q4 =>
              obtain ⟨section_offsets, section_sizes, scanned, s4⟩ := q4
              simp only [e4, rseq] at h
              cases m1 : hmGet section_offsets 1 with
              | none => simp [m1] at h
              | some off1 =>
                simp only [m1] at h
                cases m2 : hmGet section_sizes 1 with
                | none => simp [m2] at h
                | some size1 =>
                  simp only [m2] at h
                  cases e5 : read_header (seekStart off1 s4) size1 with
                  | ok q5 =>
                    obtain ⟨header, s5⟩ := q5
                    simp only [e5, rseq] at h
                    split at h
                    · cases h
                    · cases m3 : hmGet section_offsets 2 with
                      | none => simp [m3] at h
                      | some off2 =>
                        simp only [m3] at h
                        cases m4 : hmGet section_sizes 2 with
                        | none => simp [m4] at h
                        | some size2 =>
                          simp only [m4] at h
                          cases e6 : read_constraints p (seekStart off2 s5) size2 header with
                          | ok q6 =>
                            obtain ⟨constraints, s6⟩ := q6
                            simp only [e6, rseq] at h
                            cases m5 : hmGet section_offsets 3 with
                            | none => simp [m5] at h
                            | some off3 =>
                              simp only [m5] at h
                              cases m6 : hmGet section_sizes 3 with
                              | none => simp [m6] at h
                              | some size3 =>
                                simp only [m6] at h
                                cases e7 : read_map (seekStart off3 s6) size3 header with
                                | ok q7 =>
                                  obtain ⟨wire_mapping, s7⟩ := q7
                                  simp only [e7, rseq, RResult.ok.injEq,
                                    Prod.mk.injEq] at h
                                  obtain ⟨hfile, -⟩ := h
                                  subst hfile
                                  exact read_header_bounds _ _ _ _ e5
                                | ioErr => simp [e7, rseq] at h
                                | err e => simp [e7, rseq] at h
                                | panicked e => simp [e7, rseq] at h
                          | ioErr => simp [e6, rseq] at h
                          | err e => simp [e6, rseq] at h
                          | panicked e => simp [e6, rseq] at h
                  | ioErr => simp [e5, rseq] at h
                  | err e => simp [e5, rseq] at h
                  | panicked e => simp [e5, rseq] at h
            | ioErr => simp [e4, rseq] at h
            | err e => simp [e4, rseq] at h
            | panicked e => simp [e4, rseq] at h

/-- Claim C8 (counterexample to the claim as stated): `containerUnderflow`
parses successfully with `n_wires = 1`, `n_pub_in = 5`, `n_pub_out = 0`,
yet the resulting `R1CS` has `num_aux = 2 ^ 64 - 5` (the wrapping
release-mode `usize` subtraction), which is not the mathematical
difference `num_variables - num_inputs = 1 - 6 = -5`. -/
theorem c8_counterexample :
    load_r1cs_from_bin 97 ⟨containerUnderflow, 0⟩ = RResult.ok r1csUnderflow ∧
    (r1csUnderflow.num_aux : Int) ≠
      (r1csUnderflow.num_variables : Int) - (r1csUnderflow.num_inputs : Int) :=
  ⟨by decide, by decide⟩

/-- Claim C8 (amended): for every circuit-definition container that
parses successfully and whose header satisfies
`1 + n_pub_in + n_pub_out ≤ n_wires`, the resulting `R1CS` satisfies
`num_inputs = 1 + n_pub_in + n_pub_out`, `num_variables = n_wires` and
`num_aux = num_variables - num_inputs`; without that side condition the
`usize` subtraction wraps modulo `2 ^ 64`. -/
theorem c8_r1cs_invariants (p : Nat) (s : ByteStream) (file : R1CSFile) (s' : ByteStream)
    (hparse : from_reader p s = RResult.ok (file, s'))
    (hle : 1 + file.header.n_pub_in + file.header.n_pub_out ≤ file.header.n_wires) :
    load_r1cs_from_bin p s =
      RResult.ok ⟨file.header.n_wires - (1 + file.header.n_pub_in + file.header.n_pub_out),
        1 + file.header.n_pub_in + file.header.n_pub_out,
        file.header.n_wires, file.constraints⟩ := by
  obtain ⟨hw, hpo, hpi⟩ := from_reader_header_bounds p s file s' hparse
  unfold load_r1cs_from_bin
  simp only [hparse]
  have h1 : (1 + file.header.n_pub_in + file.header.n_pub_out) % 4294967296 =
      1 + file.header.n_pub_in + file.header.n_pub_out := by omega
  rw [h1]
  have h2 : (file.header.n_wires + 18446744073709551616 -
      (1 + file.header.n_pub_in + file.header.n_pub_out)) % 18446744073709551616 =
      file.header.n_wires - (1 + file.header.n_pub_in + file.header.n_pub_out) := by
    omega
  rw [h2]

/-- Claim C8 witness: the amended invariants at the concrete
well-formed container `containerGood`. -/
theorem c8_witness :
    load_r1cs_from_bin 97 ⟨containerGood, 0⟩ =
      RResult.ok ⟨fileGood.header.n_wires -
          (1 + fileGood.header.n_pub_in + fileGood.header.n_pub_out),
        1 + fileGood.header.n_pub_in + fileGood.header.n_pub_out,
        fileGood.header.n_wires, fileGood.constraints⟩ :=
  c8_r1cs_invariants 97 ⟨containerGood, 0⟩ fileGood ⟨containerGood, 168⟩
    (by decide) (by decide)

/-- Claim C5 witness: the last-wins policy observed on a stream that
declares section type 1 twice — the recorded offset is the second
section's offset 24, not the first one's 12. -/
theorem c5_witness :
    hmGet [(1, 24), (1, 12)] 1 =
      Option.map (fun x => x.2.2) (lastScan [(1, 0, 12), (1, 0, 24)] 1) ∧
    hmGet [(1, 0), (1, 0)] 1 =
      Option.map (fun x => x.2.1) (lastScan [(1, 0, 12), (1, 0, 24)] 1) :=
  (c5_scan_last_wins 2 ⟨dupSections, 0⟩).2 [(1, 24), (1, 12)] [(1, 0), (1, 0)]
    [(1, 0, 12), (1, 0, 24)] ⟨dupSections, 24⟩ 1 (by decide)

/-! ## Claim C7 -/

/-- Claim C7: the per-step transition applied by the fresh-run entry
point (`create_recursive_circuit`, loop at lines 132-156) and the one
applied by the continuation entry point (`continue_recursive_circuit`,
loop at lines 188-212) are equivalent as functions of the step state
(current public input, remaining private inputs, accumulator): for
identical step state both produce the same next public input, perform
the same fold calls and yield the same result; the entry points differ
only in how the accumulator and initial public input are seeded. -/
theorem c7_step_loops_equal {F S W PI Acc : Type} (env : StepEnv F S W PI Acc)
    (r1cs : R1CS) (private_inputs : List PI) (current_public_input : List S) (acc : Acc) :
    createStepLoop env r1cs private_inputs current_public_input acc =
      continueStepLoop env r1cs private_inputs current_public_input acc := by
  induction private_inputs generalizing current_public_input acc with
  | nil => rfl
  | cons pi rest ih =>
    cases hw : env.computeWitness current_public_input pi with
    | none => simp [createStepLoop, continueStepLoop, hw]
    | some w =>
      simp only [createStepLoop, continueStepLoop, hw]
      cases hp : env.proveStep acc r1cs (some w) with
      | none => simp [hp]
      | some acc' => simp [hp, ih]

/-! ## Claim C6 -/

/-- Claim C6 (counterexample to the claim as stated): in a run whose
first witness-generation call fails, `create_recursive_circuit` exits
(panics) without deleting the scoped temporary witness file — the
deletion is not performed on every exit path. -/
theorem c6_counterexample :
    (create_recursive_circuit envFail r1cs0 [0] [0]).fileDeleted = false ∧
    (create_recursive_circuit envFail r1cs0 [0] [0]).outcome = RunOutcome.panicked :=
  ⟨rfl, rfl⟩

/-- Claim C6 (amended): for both entry points, the scoped temporary
witness file is deleted exactly when the run succeeds (the function
returns `Ok`): `fs::remove_file` sits after the step loop on the success
path only, so any step failure exits without the deletion. -/
theorem c6_cleanup_iff_success {F S W PI Acc : Type} (env : StepEnv F S W PI Acc)
    (r1cs : R1CS) (private_inputs : List PI) (start_public_input : List F)
    (recursive_snark : Acc) (last_zi : List F) :
    ((create_recursive_circuit env r1cs private_inputs start_public_input).fileDeleted =
        true ↔
      ∃ a, (create_recursive_circuit env r1cs private_inputs start_public_input).outcome =
        RunOutcome.ok a) ∧
    ((continue_recursive_circuit env r1cs recursive_snark last_zi
        private_inputs).fileDeleted = true ↔
      ∃ a, (continue_recursive_circuit env r1cs recursive_snark last_zi
        private_inputs).outcome = RunOutcome.ok a) := by
  constructor
  · unfold create_recursive_circuit
    cases private_inputs with
    | nil => simp
    | cons p0 rest =>
      cases hw : env.computeWitness (start_public_input.map env.fmt) p0 with
      | none => simp [hw]
      | some w0 =>
        simp only [hw]
        cases hs : env.snarkNew r1cs (some w0) start_public_input with
        | none => simp [hs]
        | some acc0 =>
          simp only [hs]
          cases hrec : createStepLoop env r1cs (p0 :: rest)
              (start_public_input.map env.fmt) acc0 with
          | mk r evs =>
            cases r with
            | none => simp [hrec]
            | some res =>
              obtain ⟨rcur, racc⟩ := res
              simp [hrec]
  · unfold continue_recursive_circuit
    cases hrec : continueStepLoop env r1cs private_inputs (last_zi.map env.fmt)
        recursive_snark with
    | mk r evs =>
      cases r with
      | none => simp [hrec]
      | some res =>
        obtain ⟨rcur, racc⟩ := res
        simp [hrec]

/-! ## Claim C10 -/

theorem createStepLoop_count {F S W PI Acc : Type} (env : StepEnv F S W PI Acc)
    (r1cs : R1CS) :
    ∀ (private_inputs : List PI) (cur : List S) (acc : Acc)
      (res : List S × Acc) (evs : List (DriverEvent S PI)),
      createStepLoop env r1cs private_inputs cur acc = (some res, evs) →
      evs.countP (fun e => isWitnessCall e) = private_inputs.length ∧
      (∀ p0 rest, private_inputs = p0 :: rest →
        evs.take 2 = [DriverEvent.witnessCall cur p0, DriverEvent.foldStep])
  | [], cur, acc, res, evs, h => by
    simp only [createStepLoop, Prod.mk.injEq] at h
    obtain ⟨-, h2⟩ := h
    subst h2
    exact ⟨rfl, fun p0 rest hx => by cases hx⟩
  | pi :: rest, cur, acc, res, evs, h => by
    simp only [createStepLoop] at h
    cases hw : env.computeWitness cur pi with
    | none => simp [hw] at h
    | some w =>
      simp only [hw] at h
      cases hp : env.proveStep acc r1cs (some w) with
      | none => simp [hp] at h
      | some acc' =>
        simp only [hp] at h
        cases hrec : createStepLoop env r1cs rest
            ((env.getPublicOutputs r1cs (some w)).map env.fmt) acc' with
        | mk r evs' =>
          simp only [hrec, Prod.mk.injEq] at h
          obtain ⟨h1, h2⟩ := h
          subst h2
          cases r with
          | none => cases h1
          | some res' =>
            have ih := createStepLoop_count env r1cs rest
              ((env.getPublicOutputs r1cs (some w)).map env.fmt) acc' res' evs' hrec
            constructor
            · rw [List.countP_cons, List.countP_cons, ih.1]
              simp [isWitnessCall]
            · intro q0 qrest hx
              cases hx
              rfl

/-- Claim C10: in a fresh run over `N ≥ 1` private inputs that
completes successfully, `create_recursive_circuit` invokes the external
witness generator `N + 1` times, and the first two invocations both use
the initial public input with `private_inputs[0]` — once to build the
step-0 circuit that seeds the accumulator (before `RecursiveSNARK::new`)
and once again as the first loop iteration — so `private_inputs[0]` is
consumed twice before the first fold (`prove_step`) happens. -/
theorem c10_witness_gen_called_n_plus_one {F S W PI Acc : Type}
    (env : StepEnv F S W PI Acc) (r1cs : R1CS) (p0 : PI) (rest : List PI)
    (start_public_input : List F) (a : Acc)
    (h : (create_recursive_circuit env r1cs (p0 :: rest) start_public_input).outcome =
      RunOutcome.ok a) :
    (create_recursive_circuit env r1cs (p0 :: rest) start_public_input).events.countP
        (fun e => isWitnessCall e) = (p0 :: rest).length + 1 ∧
    (create_recursive_circuit env r1cs (p0 :: rest) start_public_input).events.take 4 =
      [DriverEvent.witnessCall (start_public_input.map env.fmt) p0,
       DriverEvent.snarkNewCall,
       DriverEvent.witnessCall (start_public_input.map env.fmt) p0,
       DriverEvent.foldStep] := by
  unfold create_recursive_circuit at h ⊢
  cases hw : env.computeWitness (start_public_input.map env.fmt) p0 with
  | none => simp [hw] at h
  | some w0 =>
    simp only [hw] at h ⊢
    cases hs : env.snarkNew r1cs (some w0) start_public_input with
    | none => simp [hs] at h
    | some acc0 =>
      simp only [hs] at h ⊢
      cases hrec : createStepLoop env r1cs (p0 :: rest)
          (start_public_input.map env.fmt) acc0 with
      | mk r evs =>
        simp only [hrec] at h ⊢
        cases r with
        | none => simp at h
        | some res =>
          obtain ⟨rcur, racc⟩ := res
          obtain ⟨hcount, htake⟩ := createStepLoop_count env r1cs (p0 :: rest)
            (start_public_input.map env.fmt) acc0 (rcur, racc) evs hrec
          constructor
          · rw [List.countP_cons, List.countP_cons, hcount]
            simp [isWitnessCall]
          · have ht2 := htake p0 rest rfl
            simp [List.take_succ_cons, ht2]

/-- Claim C10 witness: a concrete successful two-call run with one
private input. -/
theorem c10_witness :
    (create_recursive_circuit envOk r1cs0 [5] ([] : List Nat)).events.countP
        (fun e => isWitnessCall e) = 2 ∧
    (create_recursive_circuit envOk r1cs0 [5] ([] : List Nat)).events.take 4 =
      [DriverEvent.witnessCall [] 5, DriverEvent.snarkNewCall,
       DriverEvent.witnessCall [] 5, DriverEvent.foldStep] :=
  c10_witness_gen_called_n_plus_one envOk r1cs0 5 [] [] 0 (by decide)

end NSNew
